import Mathlib

/-!
Shallow embedding of the worldland node agent's orchestration core
(port allocator, rental executor, mining supervisor, mTLS hub channel,
node daemon command handlers) and proofs about its behaviour.

Times are modelled as integers (`Int`), machine durations as the
corresponding integer number of seconds; Go's `time.Sub` returns a signed
duration, hence `Int` subtraction.  Go maps are modelled as functions to
`Option` or as duplicate-free lists where the code only needs insertion,
membership and emptiness.
-/

namespace Worldland

/-! ## Port allocator (src/internal/port/manager.go) -/

/-- `Allocation` tracks a single port allocation (manager.go). -/
structure Allocation where
  sessionID : String
  allocatedAt : Int
  releasedAt : Option Int
  deriving Repr, DecidableEq

/-- Errors of the port manager (`ErrNoAvailablePorts`, `ErrPortNotAllocated`). -/
inductive PortError where
  | noAvailablePorts
  | portNotAllocated
  deriving Repr, DecidableEq

/-- `PortManager` state: range, grace period, and the allocation map
(`map[int]*Allocation` modelled as `Nat → Option Allocation`). -/
structure PortManager where
  minPort : Nat
  maxPort : Nat
  gracePeriod : Int
  allocations : Nat → Option Allocation

/-- The availability test applied to each port during the `Allocate` scan:
a port is free when it has no record, or its record is released and the
grace period has elapsed (`now.Sub(*alloc.ReleasedAt) >= pm.gracePeriod`). -/
def portFree (pm : PortManager) (now : Int) (p : Nat) : Bool :=
  match pm.allocations p with
  | none => true
  | some a =>
    match a.releasedAt with
    | none => false
    | some r => decide (pm.gracePeriod ≤ now - r)

/-- Linear scan from `lo` over `fuel` consecutive ports, returning the first
free one; mirrors the `for port := pm.minPort; port <= pm.maxPort; port++`
loop. -/
def scanFrom (free : Nat → Bool) (lo : Nat) : Nat → Option Nat
  | 0 => none
  | fuel + 1 => if free lo then some lo else scanFrom free (lo + 1) fuel

/-- `PortManager.Allocate` (manager.go): find the lowest free port in
`[minPort, maxPort]`, record a fresh allocation for it, or report
`ErrNoAvailablePorts` leaving the map untouched. -/
def PortManager.Allocate (pm : PortManager) (sessionID : String) (now : Int) :
    Except PortError Nat × PortManager :=
  match scanFrom (portFree pm now) pm.minPort (pm.maxPort + 1 - pm.minPort) with
  | some p =>
      (Except.ok p,
       { pm with allocations := fun q =>
           if q = p then some ⟨sessionID, now, none⟩ else pm.allocations q })
  | none => (Except.error PortError.noAvailablePorts, pm)

/-- `PortManager.Release` (manager.go): mark an active allocation as released
at `now`; if the port has no record or is already released, return
`ErrPortNotAllocated` without change. -/
def PortManager.Release (pm : PortManager) (p : Nat) (now : Int) :
    Except PortError Unit × PortManager :=
  match pm.allocations p with
  | none => (Except.error PortError.portNotAllocated, pm)
  | some a =>
    match a.releasedAt with
    | some _ => (Except.error PortError.portNotAllocated, pm)
    | none =>
        (Except.ok (),
         { pm with allocations := fun q =>
             if q = p then some { a with releasedAt := some now } else pm.allocations q })

/-! ### Scan lemmas -/

theorem scanFrom_some {free : Nat → Bool} {lo fuel p : Nat}
    (h : scanFrom free lo fuel = some p) :
    lo ≤ p ∧ p < lo + fuel ∧ free p = true ∧
      ∀ q, lo ≤ q → q < p → free q = false := by
  induction fuel generalizing lo with
  | zero => simp [scanFrom] at h
  | succ n ih =>
    rw [scanFrom] at h
    by_cases hf : free lo
    · simp [hf] at h
      subst h
      refine ⟨le_refl _, by omega, hf, ?_⟩
      intro q hq1 hq2
      omega
    · simp [hf] at h
      obtain ⟨h1, h2, h3, h4⟩ := ih h
      refine ⟨by omega, by omega, h3, ?_⟩
      intro q hq1 hq2
      rcases Nat.eq_or_lt_of_le hq1 with heq | hlt
      · subst heq; exact Bool.of_not_eq_true hf
      · exact h4 q hlt hq2

theorem scanFrom_none {free : Nat → Bool} {lo fuel : Nat}
    (h : scanFrom free lo fuel = none) :
    ∀ q, lo ≤ q → q < lo + fuel → free q = false := by
  induction fuel generalizing lo with
  | zero => intro q h1 h2; omega
  | succ n ih =>
    rw [scanFrom] at h
    by_cases hf : free lo
    · simp [hf] at h
    · simp [hf] at h
      intro q hq1 hq2
      rcases Nat.eq_or_lt_of_le hq1 with heq | hlt
      · subst heq; exact Bool.of_not_eq_true hf
      · exact ih h q hlt (by omega)

theorem scanFrom_ne_none {free : Nat → Bool} {lo fuel q : Nat}
    (h1 : lo ≤ q) (h2 : q < lo + fuel) (h3 : free q = true) :
    scanFrom free lo fuel ≠ none := by
  induction fuel generalizing lo with
  | zero => omega
  | succ n ih =>
    rw [scanFrom]
    by_cases hf : free lo
    · simp [hf]
    · simp [hf]
      have hne : lo ≠ q := by
        intro he; rw [he] at hf; exact hf h3
      exact ih (by omega) (by omega)

/-! ### C1 / C9 theorems -/

/-- A concrete three-port manager with no allocations, for witnesses. -/
def pmEx : PortManager :=
  { minPort := 30000, maxPort := 30002, gracePeriod := 3, allocations := fun _ => none }

/-- C1: `Allocate(session_id)` returns the lowest port `p` in
`[min_port, max_port]` that either has no prior record or whose record has
`released_at` set with `now - released_at ≥ grace_period` (that is,
`portFree` holds), records a fresh allocation for `p` under `session_id`
leaving every other port's record unchanged; when no port in the range is
free, it returns `NoPortsAvailable` and the allocation map is unchanged. -/
theorem allocate_lowest_free_port (pm : PortManager) (sid : String) (now : Int) :
    (∀ p, (pm.Allocate sid now).1 = Except.ok p →
      pm.minPort ≤ p ∧ p ≤ pm.maxPort ∧ portFree pm now p = true ∧
      (∀ q, pm.minPort ≤ q → q < p → portFree pm now q = false) ∧
      ((pm.Allocate sid now).2).allocations p = some ⟨sid, now, none⟩ ∧
      (∀ q, q ≠ p → ((pm.Allocate sid now).2).allocations q = pm.allocations q)) ∧
    ((pm.Allocate sid now).1 = Except.error PortError.noAvailablePorts ↔
      ∀ q, pm.minPort ≤ q → q ≤ pm.maxPort → portFree pm now q = false) ∧
    ((pm.Allocate sid now).1 = Except.error PortError.noAvailablePorts →
      (pm.Allocate sid now).2 = pm) := by
  refine ⟨?_, ⟨?_, ?_⟩, ?_⟩
  · intro p hp
    unfold PortManager.Allocate at hp ⊢
    cases hscan : scanFrom (portFree pm now) pm.minPort (pm.maxPort + 1 - pm.minPort) with
    | none => rw [hscan] at hp; simp at hp
    | some r =>
      rw [hscan] at hp
      simp at hp
      subst hp
      obtain ⟨h1, h2, h3, h4⟩ := scanFrom_some hscan
      refine ⟨h1, by omega, h3, h4, ?_, ?_⟩
      · simp [hscan]
      · intro q hq; simp [hscan, hq]
  · intro herr q hq1 hq2
    unfold PortManager.Allocate at herr
    cases hscan : scanFrom (portFree pm now) pm.minPort (pm.maxPort + 1 - pm.minPort) with
    | none => exact scanFrom_none hscan q hq1 (by omega)
    | some r => rw [hscan] at herr; simp at herr
  · intro hall
    unfold PortManager.Allocate
    cases hscan : scanFrom (portFree pm now) pm.minPort (pm.maxPort + 1 - pm.minPort) with
    | none => simp
    | some r =>
      obtain ⟨h1, h2, h3, _⟩ := scanFrom_some hscan
      have := hall r h1 (by omega)
      rw [this] at h3
      simp at h3
  · intro herr
    unfold PortManager.Allocate at herr ⊢
    cases hscan : scanFrom (portFree pm now) pm.minPort (pm.maxPort + 1 - pm.minPort) with
    | none => simp
    | some r => rw [hscan] at herr; simp at herr

/-- C1 witness: on the empty three-port manager, `Allocate` hands out the
lowest port 30000 and records the allocation. -/
theorem allocate_lowest_free_port_witness :
    pmEx.minPort ≤ 30000 ∧ 30000 ≤ pmEx.maxPort ∧ portFree pmEx 100 30000 = true ∧
      (∀ q, pmEx.minPort ≤ q → q < 30000 → portFree pmEx 100 q = false) ∧
      ((pmEx.Allocate "s1" 100).2).allocations 30000 = some ⟨"s1", 100, none⟩ ∧
      (∀ q, q ≠ 30000 → ((pmEx.Allocate "s1" 100).2).allocations q = pmEx.allocations q) :=
  (allocate_lowest_free_port pmEx "s1" 100).1 30000 rfl

/-- C9: `Release(p)` succeeds exactly when `p` has an allocation record with
`released_at` unset; on success it stamps `released_at := now` (other ports
untouched); when `p` was never allocated or is already released it returns
`NotAllocated` with the state unchanged, so a second release without an
intervening allocate returns `NotAllocated`. -/
theorem release_marks_active_allocation (pm : PortManager) (p : Nat) (now : Int) :
    ((pm.Release p now).1 = Except.ok () ↔
      ∃ a, pm.allocations p = some a ∧ a.releasedAt = none) ∧
    (∀ a, pm.allocations p = some a → a.releasedAt = none →
      ((pm.Release p now).2).allocations p = some { a with releasedAt := some now } ∧
      (∀ q, q ≠ p → ((pm.Release p now).2).allocations q = pm.allocations q)) ∧
    ((pm.Release p now).1 = Except.error PortError.portNotAllocated →
      (pm.Release p now).2 = pm) ∧
    ((pm.Release p now).1 = Except.ok () →
      ∀ now2, (((pm.Release p now).2).Release p now2).1 =
        Except.error PortError.portNotAllocated) := by
  refine ⟨⟨?_, ?_⟩, ?_, ?_, ?_⟩
  · intro hok
    cases ha : pm.allocations p with
    | none => simp [PortManager.Release, ha] at hok
    | some a =>
      cases hr : a.releasedAt with
      | none => exact ⟨a, rfl, hr⟩
      | some r => simp [PortManager.Release, ha, hr] at hok
  · rintro ⟨a, ha, hr⟩
    simp [PortManager.Release, ha, hr]
  · intro a ha hr
    refine ⟨by simp [PortManager.Release, ha, hr], fun q hq => ?_⟩
    simp [PortManager.Release, ha, hr, hq]
  · intro herr
    cases ha : pm.allocations p with
    | none => simp [PortManager.Release, ha]
    | some a =>
      cases hr : a.releasedAt with
      | none => simp [PortManager.Release, ha, hr] at herr
      | some r => simp [PortManager.Release, ha, hr]
  · intro hok now2
    cases ha : pm.allocations p with
    | none => simp [PortManager.Release, ha] at hok
    | some a =>
      cases hr : a.releasedAt with
      | none => simp [PortManager.Release, ha, hr]
      | some r => simp [PortManager.Release, ha, hr] at hok

/-- C9 witness: allocate port 30000 on the empty manager, release it once
(succeeds, stamping `released_at`), release again (returns `NotAllocated`). -/
theorem release_marks_active_allocation_witness :
    (((pmEx.Allocate "s1" 100).2).Release 30000 101).1 = Except.ok () ∧
    ((((pmEx.Allocate "s1" 100).2).Release 30000 101).2).allocations 30000 =
      some ⟨"s1", 100, some 101⟩ ∧
    (((((pmEx.Allocate "s1" 100).2).Release 30000 101).2).Release 30000 102).1 =
      Except.error PortError.portNotAllocated := by
  have h := release_marks_active_allocation ((pmEx.Allocate "s1" 100).2) 30000 101
  have hok : (((pmEx.Allocate "s1" 100).2).Release 30000 101).1 = Except.ok () :=
    h.1.2 ⟨⟨"s1", 100, none⟩, rfl, rfl⟩
  refine ⟨hok, ?_, h.2.2.2 hok 102⟩
  have := (h.2.1 ⟨"s1", 100, none⟩ rfl rfl).1
  exact this

/-! ## Mining supervisor (src/internal/mining/daemon.go)

The Docker calls made by the daemon are modelled by a behaviour record
giving each call's outcome; the daemon's mutable fields become a state
record threaded through the operations.  `pausedGPUs` (a Go
`map[string]bool` used only for insert, delete, membership and `len`) is a
duplicate-free list. -/

/-- Mining daemon states (`MiningStateStopped/Running/Paused`). -/
inductive MState where
  | stopped
  | running
  | paused
  deriving Repr, DecidableEq

/-- Outcomes of the Docker calls issued by one mining `Start` attempt:
`createResult` is `CreateContainer`'s result, `startResult` is
`StartContainer`'s error if any. -/
structure MiningBeh where
  createResult : Except String String
  startResult : Option String
  deriving Repr

/-- The `MiningDaemon` mutable fields plus its immutable config
(`config.Enabled`, `config.GPUDeviceIDs`). -/
structure MiningDaemonState where
  enabled : Bool
  configGPUs : List String
  state : MState
  containerID : String
  startedAt : Option Int
  pausedAt : Option Int
  pausedGPUs : List String
  deriving Repr, DecidableEq

/-- Insert a GPU uuid into the rented set (`m.pausedGPUs[gpu] = true`). -/
def insertGPU (l : List String) (g : String) : List String :=
  if g ∈ l then l else l ++ [g]

/-- `getAvailableGPUs` (daemon.go): with no configured GPUs the synthetic
device list is `["all"]` when nothing is rented and empty otherwise; with
configured GPUs, those not in `pausedGPUs`. -/
def getAvailableGPUs (d : MiningDaemonState) : List String :=
  if d.configGPUs = [] then
    if d.pausedGPUs.length > 0 then [] else ["all"]
  else
    d.configGPUs.filter (fun g => !(d.pausedGPUs.contains g))

/-- `MiningDaemon.Start` (daemon.go): no-op when disabled or already
`Running`; pause (recording `pausedAt`) when no GPU is available; otherwise
create and start one container on the first available GPU, moving to
`Running` on success and leaving the fields untouched on failure. -/
def MiningDaemonState.Start (d : MiningDaemonState) (beh : MiningBeh) (now : Int) :
    MiningDaemonState × Option String :=
  if d.enabled = false then (d, none)
  else if d.state = MState.running then (d, none)
  else
    match getAvailableGPUs d with
    | [] => ({ d with state := MState.paused, pausedAt := some now }, none)
    | _ :: _ =>
      match beh.createResult with
      | Except.error e => (d, some ("failed to create mining container: " ++ e))
      | Except.ok cid =>
        match beh.startResult with
        | some e => (d, some ("failed to start mining container: " ++ e))
        | none =>
            ({ d with containerID := cid, state := MState.running,
                      startedAt := some now, pausedAt := none }, none)

/-- `MiningDaemon.Stop` (daemon.go): clear identifiers and timestamps and
move to `Stopped` (container stop/remove are best-effort warnings). -/
def MiningDaemonState.Stop (d : MiningDaemonState) : MiningDaemonState :=
  if d.state = MState.stopped then d
  else { d with containerID := "", state := MState.stopped,
                startedAt := none, pausedAt := none }

/-- `MiningDaemon.PauseForRental` (daemon.go): add `gpus` to the rented
set; when `Running` with a container, stop and remove it and clear
`containerID`; then, if no GPU remains, move to `Paused` recording
`pausedAt`; otherwise spawn an asynchronous `Start` (the Boolean result
records that the goroutine was spawned — the daemon's own fields are
returned exactly as the method leaves them). -/
def MiningDaemonState.PauseForRental (d : MiningDaemonState) (gpus : List String)
    (now : Int) : MiningDaemonState × Bool :=
  let d1 := { d with pausedGPUs := gpus.foldl insertGPU d.pausedGPUs }
  if d1.state = MState.running ∧ d1.containerID ≠ "" then
    let d2 := { d1 with containerID := "" }
    match getAvailableGPUs d2 with
    | [] => ({ d2 with state := MState.paused, pausedAt := some now }, false)
    | _ :: _ => (d2, true)
  else (d1, false)

/-- `MiningDaemon.ResumeAfterRental` (daemon.go): remove `gpus` from the
rented set; when `Paused` or `Stopped`, call `Start`. -/
def MiningDaemonState.ResumeAfterRental (d : MiningDaemonState) (gpus : List String)
    (beh : MiningBeh) (now : Int) : MiningDaemonState × Option String :=
  let d1 := { d with pausedGPUs := d.pausedGPUs.filter (fun g => !(gpus.contains g)) }
  if d1.state = MState.paused ∨ d1.state = MState.stopped then d1.Start beh now
  else (d1, none)

/-! ### C3 / C4 / C10 theorems -/

/-- A running two-GPU daemon used as the failing input for C3 and C4. -/
def mdRunning : MiningDaemonState :=
  { enabled := true, configGPUs := ["g0", "g1"], state := MState.running,
    containerID := "c1", startedAt := some 0, pausedAt := none, pausedGPUs := [] }

/-- C3 (code bug): with GPUs `g0, g1` configured and mining running, renting
`g0` leaves a remaining GPU, so `PauseForRental` stops and removes the
container and spawns the asynchronous restart — but it never leaves the
`Running` state, so the spawned `Start` returns immediately (its
`state == Running` guard fires) without creating any container: mining is
left `Running` with an empty `containerID` and is never brought back. -/
theorem pause_for_rental_async_restart_is_noop :
    ((mdRunning.PauseForRental ["g0"] 1).2 = true ∧
     (mdRunning.PauseForRental ["g0"] 1).1.state = MState.running ∧
     (mdRunning.PauseForRental ["g0"] 1).1.containerID = "" ∧
     (mdRunning.PauseForRental ["g0"] 1).1.pausedGPUs = ["g0"]) ∧
    ((mdRunning.PauseForRental ["g0"] 1).1.Start ⟨Except.ok "c2", none⟩ 2 =
      ((mdRunning.PauseForRental ["g0"] 1).1, none)) := by
  constructor
  · refine ⟨rfl, rfl, rfl, rfl⟩
  · rfl

/-- The state invariant claimed by the spec:
`Running ⇔ containerID ≠ ""`. -/
def miningInvariant (d : MiningDaemonState) : Prop :=
  d.state = MState.running ↔ d.containerID ≠ ""

/-- C4 (code bug): the invariant `Running ⇔ container_id ≠ null` is broken
by `PauseForRental` whenever a configured GPU remains un-rented: the
returned state is `Running` with an empty `containerID`. -/
theorem pause_for_rental_breaks_running_invariant :
    (mdRunning.PauseForRental ["g0"] 1).1.state = MState.running ∧
    (mdRunning.PauseForRental ["g0"] 1).1.containerID = "" ∧
    ¬ miningInvariant (mdRunning.PauseForRental ["g0"] 1).1 := by
  refine ⟨rfl, rfl, ?_⟩
  intro h
  exact (h.mp rfl) rfl

/-- C10: with an empty configured-GPU list, the available set is exactly
`["all"]` when nothing is rented and empty otherwise; hence renting any
non-empty GPU list leaves mining with no available device, and `Start`
cannot reach `Running` (it pauses or stays put) until every rented GPU is
returned. -/
theorem empty_config_all_device_availability (d : MiningDaemonState)
    (hcfg : d.configGPUs = []) :
    (getAvailableGPUs d = ["all"] ↔ d.pausedGPUs = []) ∧
    (d.pausedGPUs ≠ [] → getAvailableGPUs d = []) ∧
    (∀ gpus now, gpus ≠ [] →
      getAvailableGPUs (d.PauseForRental gpus now).1 = []) ∧
    (∀ beh now, d.pausedGPUs ≠ [] → d.state ≠ MState.running →
      (d.Start beh now).1.state ≠ MState.running ∧
      (d.Start beh now).1.containerID = d.containerID) := by
  have havail : ∀ e : MiningDaemonState, e.configGPUs = [] → e.pausedGPUs ≠ [] →
      getAvailableGPUs e = [] := by
    intro e hc hp
    unfold getAvailableGPUs
    rw [hc]
    simp only [if_pos rfl]
    have : e.pausedGPUs.length > 0 := List.length_pos.mpr hp
    simp [this]
  have hfold_ne : ∀ (gpus l : List String), gpus ≠ [] →
      gpus.foldl insertGPU l ≠ [] := by
    intro gpus
    induction gpus with
    | nil => intro l h; exact absurd rfl h
    | cons g rest ih =>
      intro l _
      cases rest with
      | nil =>
        simp only [List.foldl]
        unfold insertGPU
        by_cases hg : g ∈ l
        · simp [hg]
          intro hl; rw [hl] at hg; exact absurd hg (List.not_mem_nil g)
        · simp [hg]
      | cons g2 rest2 =>
        simp only [List.foldl]
        exact ih _ (by simp)
  have hfields : ∀ gpus now,
      (d.PauseForRental gpus now).1.pausedGPUs = gpus.foldl insertGPU d.pausedGPUs ∧
      (d.PauseForRental gpus now).1.configGPUs = d.configGPUs := by
    intro gpus now
    simp only [MiningDaemonState.PauseForRental]
    constructor
    · split
      · split <;> rfl
      · rfl
    · split
      · split <;> rfl
      · rfl
  refine ⟨⟨?_, ?_⟩, havail d hcfg, ?_, ?_⟩
  · intro hall
    by_contra hp
    have := havail d hcfg hp
    rw [hall] at this
    simp at this
  · intro hp
    unfold getAvailableGPUs
    rw [hcfg, hp]
    simp
  · intro gpus now hg
    refine havail _ ((hfields gpus now).2.trans hcfg) ?_
    rw [(hfields gpus now).1]
    exact hfold_ne gpus _ hg
  · intro beh now hp hrun
    unfold MiningDaemonState.Start
    by_cases he : d.enabled = false
    · simp only [he, if_pos rfl]
      exact ⟨hrun, rfl⟩
    · simp only [he, if_false]
      simp only [if_neg hrun]
      rw [havail d hcfg hp]
      exact ⟨by simp, rfl⟩

/-- C10 witness: a daemon with empty config and GPU `g0` rented has no
available device, pausing a further rental keeps the set empty, and `Start`
from `Paused` stays away from `Running`. -/
theorem empty_config_all_device_availability_witness :
    let d : MiningDaemonState :=
      { enabled := true, configGPUs := [], state := MState.paused,
        containerID := "", startedAt := none, pausedAt := some 0,
        pausedGPUs := ["g0"] }
    getAvailableGPUs d = [] ∧
    getAvailableGPUs (d.PauseForRental ["g1"] 1).1 = [] ∧
    (d.Start ⟨Except.ok "c9", none⟩ 2).1.state ≠ MState.running := by
  intro d
  have h := empty_config_all_device_availability d rfl
  refine ⟨h.2.1 (by simp), h.2.2.1 ["g1"] 1 (by simp), (h.2.2.2 ⟨Except.ok "c9", none⟩ 2 (by simp) (by simp)).1⟩

/-! ## Rental executor (src/internal/rental/executor.go)

Docker calls are modelled by a behaviour record; the set of containers the
local Docker daemon holds is carried in the executor state so that
create/remove effects are observable.  All steps of one call are modelled
at a single instant `now`. -/

/-- One `InspectContainer` result: `{state, health}` or an error. -/
inductive InspectRes where
  | ok (state : String) (health : String)
  | err (e : String)
  deriving Repr, DecidableEq

/-- Terminal outcomes of the health poll. -/
inductive HealthOutcome where
  | healthy
  | notHealthy
  | stoppedDuringStartup (state : String)
  | inspectFailed (e : String)
  deriving Repr, DecidableEq

/-- One iteration of the `waitForHealth` loop body after the deadline
check, in the code's order: inspect error → fail; `running` with health
`""` or `healthy` → done; `running`/`starting` → keep polling; `running`/
`unhealthy` → `ErrContainerNotHealthy`; `exited` or `dead` → stopped during
startup; anything else → keep polling. `none` means keep polling. -/
def pollStep (r : InspectRes) : Option HealthOutcome :=
  match r with
  | InspectRes.err e => some (HealthOutcome.inspectFailed e)
  | InspectRes.ok st h =>
    if st = "running" ∧ (h = "" ∨ h = "healthy") then some HealthOutcome.healthy
    else if st = "running" ∧ h = "starting" then none
    else if st = "running" ∧ h = "unhealthy" then some HealthOutcome.notHealthy
    else if st = "exited" ∨ st = "dead" then some (HealthOutcome.stoppedDuringStartup st)
    else none

/-- The `waitForHealth` loop: poll `i` runs at elapsed time `i * interval`;
the loop first returns `ErrContainerNotHealthy` once the elapsed time
exceeds the timeout (`time.Now().After(deadline)`), otherwise applies
`pollStep` to the `i`-th inspect result.  The second component counts the
inspects performed.  `fuel` bounds the recursion; with `interval = 0` the
Go loop would poll forever, which the model renders as `none`. -/
def waitForHealthAux (inspect : Nat → InspectRes) (timeout interval : Nat) :
    Nat → Nat → Option (HealthOutcome × Nat)
  | _, 0 => none
  | i, fuel + 1 =>
    if i * interval > timeout then some (HealthOutcome.notHealthy, i)
    else
      match pollStep (inspect i) with
      | some o => some (o, i + 1)
      | none => waitForHealthAux inspect timeout interval (i + 1) fuel

/-- `RentalExecutor.waitForHealth` (executor.go) over a stream of inspect
results; `timeout / interval + 2` polls always suffice when
`interval > 0`. -/
def waitForHealth (inspect : Nat → InspectRes) (timeout interval : Nat) :
    Option (HealthOutcome × Nat) :=
  waitForHealthAux inspect timeout interval 0 (timeout / interval + 2)

/-- Rental-executor errors, each wrapping what the Go error wraps. -/
inductive RentalError where
  | sessionAlreadyActive
  | sessionNotFound
  | allocatePortFailed (e : PortError)
  | createContainerFailed (e : String)
  | startContainerFailed (e : String)
  | healthCheckFailed (o : HealthOutcome)
  | stopContainerFailed (e : String)
  deriving Repr, DecidableEq

/-- Message text used when the node daemon stringifies an executor error. -/
def rentalErrorString : RentalError → String
  | RentalError.sessionAlreadyActive => "session already has active rental"
  | RentalError.sessionNotFound => "rental session not found"
  | RentalError.allocatePortFailed _ => "failed to allocate port"
  | RentalError.createContainerFailed e => "failed to create container: " ++ e
  | RentalError.startContainerFailed e => "failed to start container: " ++ e
  | RentalError.healthCheckFailed _ => "failed health check"
  | RentalError.stopContainerFailed e => "failed to stop container: " ++ e

/-- `RentalState` (executor.go). -/
structure RentalState where
  sessionID : String
  containerID : String
  sshPort : Nat
  startedAt : Int
  stoppedAt : Option Int
  deriving Repr, DecidableEq

/-- `ConnectionInfo` (executor.go). -/
structure ConnectionInfo where
  host : String
  port : Nat
  user : String
  command : String
  containerID : String
  deriving Repr, DecidableEq

/-- `StartRentalRequest` (executor.go). -/
structure StartRentalRequest where
  sessionID : String
  image : String
  gpuDeviceID : String
  sshPublicKey : String
  memoryBytes : Int
  cpuCount : Int
  host : String
  deriving Repr, DecidableEq

/-- The rental executor's state plus the local Docker daemon's container
set (so that create/remove are observable). -/
structure ExecutorState where
  portManager : PortManager
  activeRentals : String → Option RentalState
  containers : List String
  gracePeriod : Nat
  healthTimeout : Nat
  healthInterval : Nat

/-- `NewRentalExecutor` (executor.go): empty rental map, health timeout
60 s, health interval 2 s. -/
def NewRentalExecutor (pm : PortManager) (gracePeriod : Nat) : ExecutorState :=
  { portManager := pm, activeRentals := fun _ => none, containers := [],
    gracePeriod := gracePeriod, healthTimeout := 60, healthInterval := 2 }

/-- Outcomes of the Docker calls a single `StartRental` issues. -/
structure RentalDockerBeh where
  createResult : Except String String
  startResult : Option String
  inspect : Nat → InspectRes

/-- `RentalExecutor.StartRental` (executor.go): duplicate-session check,
port allocation, container create + start, health poll; on any failure
after the port was allocated, `cleanupOnError` force-removes the created
container (if any) and releases the port; on success the session is
recorded and `ConnectionInfo` returned. -/
def StartRental (ex : ExecutorState) (req : StartRentalRequest)
    (beh : RentalDockerBeh) (now : Int) :
    Except RentalError ConnectionInfo × ExecutorState :=
  match ex.activeRentals req.sessionID with
  | some _ => (Except.error RentalError.sessionAlreadyActive, ex)
  | none =>
    match ex.portManager.Allocate req.sessionID now with
    | (Except.error e, pm1) =>
        (Except.error (RentalError.allocatePortFailed e), { ex with portManager := pm1 })
    | (Except.ok sshPort, pm1) =>
      match beh.createResult with
      | Except.error e =>
          (Except.error (RentalError.createContainerFailed e),
           { ex with portManager := (pm1.Release sshPort now).2 })
      | Except.ok cid =>
        match beh.startResult with
        | some e =>
            (Except.error (RentalError.startContainerFailed e),
             { ex with portManager := (pm1.Release sshPort now).2,
                       containers := (ex.containers ++ [cid]).erase cid })
        | none =>
          match waitForHealth beh.inspect ex.healthTimeout ex.healthInterval with
          | some (HealthOutcome.healthy, _) =>
              (Except.ok
                 { host := req.host, port := sshPort, user := "ubuntu",
                   command := "ssh -p " ++ toString sshPort ++ " ubuntu@" ++ req.host,
                   containerID := cid },
               { ex with portManager := pm1,
                         containers := ex.containers ++ [cid],
                         activeRentals := fun s =>
                           if s = req.sessionID then
                             some { sessionID := req.sessionID, containerID := cid,
                                    sshPort := sshPort, startedAt := now, stoppedAt := none }
                           else ex.activeRentals s })
          | some (o, _) =>
              (Except.error (RentalError.healthCheckFailed o),
               { ex with portManager := (pm1.Release sshPort now).2,
                         containers := (ex.containers ++ [cid]).erase cid })
          | none =>
              (Except.error (RentalError.healthCheckFailed HealthOutcome.notHealthy),
               { ex with portManager := (pm1.Release sshPort now).2,
                         containers := (ex.containers ++ [cid]).erase cid })

/-- `RentalExecutor.StopRental` (executor.go): `SessionNotFound` when the
session is absent; otherwise stamp `stoppedAt`, stop the container
(`stopResult` is `StopContainer`'s error if any; failure is returned after
the stamp), and on success schedule the grace-period cleanup (the Boolean
records that the goroutine was spawned). -/
def StopRental (ex : ExecutorState) (sessionID : String) (stopResult : Option String)
    (now : Int) : Except RentalError Unit × ExecutorState × Bool :=
  match ex.activeRentals sessionID with
  | none => (Except.error RentalError.sessionNotFound, ex, false)
  | some st =>
    let ex1 := { ex with activeRentals := fun s =>
        if s = sessionID then some { st with stoppedAt := some now }
        else ex.activeRentals s }
    match stopResult with
    | some e => (Except.error (RentalError.stopContainerFailed e), ex1, false)
    | none => (Except.ok (), ex1, true)

/-! ## Node daemon stop handler (src/internal/services/node_daemon.go) -/

/-- A Hub command; the string-valued part of its payload map. -/
structure Command where
  id : String
  type : String
  payload : String → Option String

/-- A `CommandAck`; the stop handler's payload holds at most
`session_id`. -/
structure CommandAck where
  commandID : String
  status : String
  error : Option String
  payload : List (String × String)
  deriving Repr, DecidableEq

/-- The node daemon's references to its executor and mining daemon. -/
structure NodeDaemonState where
  rentalExecutor : Option ExecutorState
  miningDaemon : Option MiningDaemonState

/-- `NodeDaemon.handleStopRental` (node_daemon.go): reject when no executor
is configured or `session_id` is missing; call `StopRental`; on its error
reply `ok` with a `stop warning:` string (and return); on success reply
`ok` with the session id in the payload, after calling
`ResumeAfterRental([])` when a mining daemon is configured.  The third
result records the GPU list passed to `ResumeAfterRental`, or `none` when
it was not called. -/
def handleStopRental (d : NodeDaemonState) (cmd : Command) (stopResult : Option String)
    (resumeBeh : MiningBeh) (now : Int) :
    CommandAck × NodeDaemonState × Option (List String) :=
  match d.rentalExecutor with
  | none => (⟨cmd.id, "error", some "rental executor not configured", []⟩, d, none)
  | some ex =>
    let sessionID := (cmd.payload "session_id").getD ""
    if sessionID = "" then
      (⟨cmd.id, "error", some "missing session_id", []⟩, d, none)
    else
      match StopRental ex sessionID stopResult now with
      | (Except.error e, ex1, _) =>
          (⟨cmd.id, "ok", some ("stop warning: " ++ rentalErrorString e), []⟩,
           { d with rentalExecutor := some ex1 }, none)
      | (Except.ok _, ex1, _) =>
        match d.miningDaemon with
        | some md =>
            (⟨cmd.id, "ok", none, [("session_id", sessionID)]⟩,
             { rentalExecutor := some ex1,
               miningDaemon := some (md.ResumeAfterRental [] resumeBeh now).1 },
             some [])
        | none =>
            (⟨cmd.id, "ok", none, [("session_id", sessionID)]⟩,
             { d with rentalExecutor := some ex1 }, none)

/-! ## Hub channel mTLS client (src/internal/adapters/mtls/client.go) -/

/-- `tls.VersionTLS12` (0x0303). -/
def VersionTLS12 : Nat := 771

/-- `tls.VersionTLS13` (0x0304). -/
def VersionTLS13 : Nat := 772

/-- An established TLS connection and the protocol version it
negotiated. -/
structure TLSConn where
  version : Nat
  deriving Repr, DecidableEq

/-- A peer, abstracted to the set of TLS versions it will negotiate. -/
structure TLSServer where
  versions : List Nat
  deriving Repr, DecidableEq

/-- Modelled from the `crypto/tls` contract the code relies on: the
handshake succeeds iff the peer offers a version within
`[MinVersion, MaxVersion]`, and then yields such a version; otherwise
`Handshake` returns an error. -/
def negotiate (minV maxV : Nat) (srv : TLSServer) : Option Nat :=
  (srv.versions.filter (fun v => decide (minV ≤ v) && decide (v ≤ maxV))).head?

/-- The mTLS client's connection slot (`c.conn`). -/
structure MTLSClient where
  conn : Option TLSConn
  deriving Repr, DecidableEq

/-- `Client.Connect` (client.go): dial with
`MinVersion = MaxVersion = tls.VersionTLS13`; on handshake failure close
and return the error without installing the connection; on success install
it. -/
def MTLSClient.Connect (c : MTLSClient) (srv : TLSServer) :
    Except String Unit × MTLSClient :=
  match negotiate VersionTLS13 VersionTLS13 srv with
  | none => (Except.error "TLS handshake failed", c)
  | some v => (Except.ok (), { conn := some ⟨v⟩ })

/-- `Client.Send` (client.go): writing application bytes requires an
installed connection; the result carries the version of the connection the
bytes went over. -/
def MTLSClient.Send (c : MTLSClient) (data : List Nat) :
    Except String (Nat × List Nat) :=
  match c.conn with
  | none => Except.error "not connected"
  | some conn => Except.ok (conn.version, data)

/-! ### C5 theorems -/

theorem waitForHealthAux_reaches {inspect : Nat → InspectRes} {timeout interval : Nat}
    {i : Nat} {o : HealthOutcome}
    (htime : i * interval ≤ timeout) (hstep : pollStep (inspect i) = some o) :
    ∀ fuel i0, i0 ≤ i → (∀ j, i0 ≤ j → j < i → pollStep (inspect j) = none) →
      i + 1 ≤ i0 + fuel →
      waitForHealthAux inspect timeout interval i0 fuel = some (o, i + 1) := by
  intro fuel
  induction fuel with
  | zero => intro i0 h1 _ h3; omega
  | succ n ih =>
    intro i0 hle hcont hfuel
    rw [waitForHealthAux]
    have hnotime : ¬ (i0 * interval > timeout) := by
      have : i0 * interval ≤ i * interval := Nat.mul_le_mul_right _ hle
      omega
    rw [if_neg hnotime]
    rcases Nat.eq_or_lt_of_le hle with heq | hlt
    · subst heq; rw [hstep]
    · rw [hcont i0 (le_refl _) hlt]
      exact ih (i0 + 1) hlt (fun j hj1 hj2 => hcont j (by omega) hj2) (by omega)

theorem waitForHealthAux_timeout {inspect : Nat → InspectRes} {timeout interval : Nat}
    (hpos : 0 < interval)
    (hcont : ∀ j, j ≤ timeout / interval → pollStep (inspect j) = none) :
    ∀ fuel i0, i0 ≤ timeout / interval + 1 → timeout / interval + 2 ≤ i0 + fuel →
      waitForHealthAux inspect timeout interval i0 fuel =
        some (HealthOutcome.notHealthy, timeout / interval + 1) := by
  intro fuel
  induction fuel with
  | zero => intro i0 h1 h2; omega
  | succ n ih =>
    intro i0 h1 h2
    rw [waitForHealthAux]
    rcases Nat.eq_or_lt_of_le h1 with heq | hlt
    · have hover : i0 * interval > timeout := by
        subst heq
        have := (Nat.div_lt_iff_lt_mul hpos).mp (Nat.lt_succ_self (timeout / interval))
        exact this
      rw [if_pos hover, heq]
    · have hle' : i0 ≤ timeout / interval := by omega
      have hnotime : ¬ (i0 * interval > timeout) := by
        have hmul : i0 * interval ≤ (timeout / interval) * interval :=
          Nat.mul_le_mul_right _ hle'
        have hdm : (timeout / interval) * interval ≤ timeout := Nat.div_mul_le_self _ _
        omega
      rw [if_neg hnotime, hcont i0 hle']
      exact ih (i0 + 1) (by omega) (by omega)

/-- C5, amended: provided the interval is positive, the health poll returns
the first terminal verdict of `pollStep`: success exactly on the first
inspect showing `running` with health `healthy` or `""`; fast failure on
`exited`/`dead` (stopped during startup), on `running`/`unhealthy`
(`ContainerNotHealthy`) and on an inspect error; and `ContainerNotHealthy`
after `timeout / interval + 1` polls when every inspect up to the deadline
says to keep polling (`running`/`starting` or an unrecognized state).  The
executor's defaults are `health_timeout = 60` s and `health_interval = 2`
s. -/
theorem health_poll_first_verdict (inspect : Nat → InspectRes)
    (timeout interval : Nat) (hpos : 0 < interval) :
    (∀ i o, i * interval ≤ timeout →
      (∀ j, j < i → pollStep (inspect j) = none) →
      pollStep (inspect i) = some o →
      waitForHealth inspect timeout interval = some (o, i + 1)) ∧
    ((∀ j, j ≤ timeout / interval → pollStep (inspect j) = none) →
      waitForHealth inspect timeout interval =
        some (HealthOutcome.notHealthy, timeout / interval + 1)) ∧
    (pollStep (InspectRes.ok "running" "") = some HealthOutcome.healthy ∧
     pollStep (InspectRes.ok "running" "healthy") = some HealthOutcome.healthy ∧
     pollStep (InspectRes.ok "running" "starting") = none ∧
     pollStep (InspectRes.ok "running" "unhealthy") = some HealthOutcome.notHealthy ∧
     (∀ h, h ≠ "" → h ≠ "healthy" → h ≠ "starting" → h ≠ "unhealthy" →
        pollStep (InspectRes.ok "running" h) = none) ∧
     (∀ h, pollStep (InspectRes.ok "exited" h) =
        some (HealthOutcome.stoppedDuringStartup "exited")) ∧
     (∀ h, pollStep (InspectRes.ok "dead" h) =
        some (HealthOutcome.stoppedDuringStartup "dead")) ∧
     (∀ st h, st ≠ "running" → st ≠ "exited" → st ≠ "dead" →
        pollStep (InspectRes.ok st h) = none)) ∧
    (∀ pm g, (NewRentalExecutor pm g).healthTimeout = 60 ∧
       (NewRentalExecutor pm g).healthInterval = 2) := by
  refine ⟨?_, ?_, ⟨rfl, rfl, rfl, rfl, ?_, ?_, ?_, ?_⟩, fun pm g => ⟨rfl, rfl⟩⟩
  · intro i o htime hcont hstep
    have hi : i ≤ timeout / interval := (Nat.le_div_iff_mul_le hpos).mpr htime
    exact waitForHealthAux_reaches htime hstep _ 0 (Nat.zero_le _)
      (fun j _ hj2 => hcont j hj2) (by omega)
  · intro hcont
    exact waitForHealthAux_timeout hpos hcont _ 0 (Nat.zero_le _) (by omega)
  · intro h h1 h2 h3 h4
    simp [pollStep, h1, h2, h3, h4]
  · intro h
    simp [pollStep]
  · intro h
    simp [pollStep]
  · intro st h h1 h2 h3
    simp [pollStep, h1, h2, h3]

/-- C5 witness: two `starting` inspects followed by a `healthy` one yield
success after three inspects under the default 60 s / 2 s settings. -/
theorem health_poll_first_verdict_witness :
    waitForHealth
      (fun j => if j < 2 then InspectRes.ok "running" "starting"
                else InspectRes.ok "running" "healthy") 60 2 =
      some (HealthOutcome.healthy, 3) :=
  (health_poll_first_verdict
      (fun j => if j < 2 then InspectRes.ok "running" "starting"
                else InspectRes.ok "running" "healthy") 60 2 (by decide)).1
    2 HealthOutcome.healthy (by decide) (by decide) (by decide)

/-- C5 counterexample to the claim as stated: with every inspect reporting
`running`/`unhealthy` — a state that is neither the success condition nor
`exited`/`dead` — the claim says the poll keeps going and fails only when
the elapsed time reaches the 60 s timeout (31 inspects at 2 s interval),
but the code returns `ContainerNotHealthy` after the very first inspect. -/
theorem health_poll_unhealthy_fast_fail :
    waitForHealth (fun _ => InspectRes.ok "running" "unhealthy") 60 2 =
      some (HealthOutcome.notHealthy, 1) ∧ (1 : Nat) ≠ 60 / 2 + 1 := by
  constructor
  · rfl
  · decide

/-! ### C6 / C2 theorems -/

/-- `true` on `Except.ok`. -/
def isOkE {ε α : Type} : Except ε α → Bool
  | Except.ok _ => true
  | Except.error _ => false

/-- A successful `Allocate` writes a fresh, un-released record. -/
theorem allocate_ok_record {pm : PortManager} {sid : String} {now : Int} {p : Nat}
    (h : (pm.Allocate sid now).1 = Except.ok p) :
    ((pm.Allocate sid now).2).allocations p = some ⟨sid, now, none⟩ := by
  unfold PortManager.Allocate at h ⊢
  cases hscan : scanFrom (portFree pm now) pm.minPort (pm.maxPort + 1 - pm.minPort) with
  | none => rw [hscan] at h; simp at h
  | some r =>
    rw [hscan] at h
    simp at h
    subst h
    simp [hscan]

/-- Releasing a port whose record is un-released stamps `releasedAt`. -/
theorem release_stamps {pm : PortManager} {p : Nat} {now : Int} {a : Allocation}
    (ha : pm.allocations p = some a) (hr : a.releasedAt = none) :
    ((pm.Release p now).2).allocations p = some { a with releasedAt := some now } := by
  simp [PortManager.Release, ha, hr]

/-- C6: when `session_id` is already present in the active-rentals map,
`StartRental` returns `SessionAlreadyActive` and the whole executor state —
port manager, container set and rental map — is unchanged. -/
theorem duplicate_session_rejected (ex : ExecutorState) (req : StartRentalRequest)
    (beh : RentalDockerBeh) (now : Int) (s : RentalState)
    (hdup : ex.activeRentals req.sessionID = some s) :
    (StartRental ex req beh now).1 = Except.error RentalError.sessionAlreadyActive ∧
    (StartRental ex req beh now).2 = ex := by
  unfold StartRental
  rw [hdup]
  exact ⟨rfl, rfl⟩

/-- C6 witness: a one-session executor rejects a duplicate start for that
session and keeps its state. -/
theorem duplicate_session_rejected_witness :
    let s1 : RentalState :=
      { sessionID := "s1", containerID := "c1", sshPort := 30000,
        startedAt := 0, stoppedAt := none }
    let ex : ExecutorState :=
      { portManager := pmEx, activeRentals := fun s => if s = "s1" then some s1 else none,
        containers := ["c1"], gracePeriod := 1800, healthTimeout := 60, healthInterval := 2 }
    let req : StartRentalRequest :=
      { sessionID := "s1", image := "img", gpuDeviceID := "0", sshPublicKey := "pw",
        memoryBytes := 1024, cpuCount := 4, host := "h" }
    let beh : RentalDockerBeh :=
      { createResult := Except.ok "c2", startResult := none,
        inspect := fun _ => InspectRes.ok "running" "healthy" }
    (StartRental ex req beh 5).1 = Except.error RentalError.sessionAlreadyActive ∧
    (StartRental ex req beh 5).2 = ex := by
  intro s1 ex req beh
  exact duplicate_session_rejected ex req beh 5 s1 rfl

/-- C2: whenever `StartRental` fails on a session not previously present,
the compensating cleanup has run: the rental map still has no entry for the
session, any container the call created is gone from the Docker daemon
(assuming its id was fresh), and if the port allocation had succeeded its
record is marked released at `now`. -/
theorem start_rental_rollback (ex : ExecutorState) (req : StartRentalRequest)
    (beh : RentalDockerBeh) (now : Int)
    (hempty : ex.activeRentals req.sessionID = none)
    (hfail : isOkE (StartRental ex req beh now).1 = false) :
    ((StartRental ex req beh now).2).activeRentals req.sessionID = none ∧
    (∀ cid, beh.createResult = Except.ok cid → cid ∉ ex.containers →
      cid ∉ ((StartRental ex req beh now).2).containers) ∧
    (∀ p, (ex.portManager.Allocate req.sessionID now).1 = Except.ok p →
      ((StartRental ex req beh now).2).portManager.allocations p =
        some ⟨req.sessionID, now, some now⟩) := by
  have herase : ∀ (l : List String) (cid : String), cid ∉ l →
      cid ∉ (l ++ [cid]).erase cid := by
    intro l cid hmem
    rw [List.erase_append_right _ hmem]
    simp [hmem]
  have hrel : ∀ p, (ex.portManager.Allocate req.sessionID now).1 = Except.ok p →
      (((ex.portManager.Allocate req.sessionID now).2).Release p now).2.allocations p =
        some ⟨req.sessionID, now, some now⟩ := by
    intro p hp
    exact release_stamps (allocate_ok_record hp) rfl
  unfold StartRental at hfail ⊢
  rw [hempty] at hfail ⊢
  cases halloc : ex.portManager.Allocate req.sessionID now with
  | mk res pm1 =>
    rw [halloc] at hfail
    have hrelpm : ∀ sshPort, res = Except.ok sshPort →
        (pm1.Release sshPort now).2.allocations sshPort =
          some ⟨req.sessionID, now, some now⟩ := by
      intro sshPort hres
      have := hrel sshPort (by rw [halloc, hres])
      rw [halloc] at this
      exact this
    cases res with
    | error e =>
      refine ⟨hempty, fun cid _ hmem => hmem, fun p hp => ?_⟩
      simp at hp
    | ok sshPort =>
      have hrelpm' := hrelpm sshPort rfl
      cases hcreate : beh.createResult with
      | error e =>
        refine ⟨hempty, fun cid hc => ?_, fun p hp => ?_⟩
        · simp at hc
        · simp at hp
          subst hp
          exact hrelpm'
      | ok cid =>
        cases hstart : beh.startResult with
        | some e =>
          refine ⟨hempty, fun cid2 hc hmem => ?_, fun p hp => ?_⟩
          · injection hc with hcc
            subst hcc
            exact herase _ _ hmem
          · simp at hp
            subst hp
            exact hrelpm'
        | none =>
          cases hhealth : waitForHealth beh.inspect ex.healthTimeout ex.healthInterval with
          | none =>
            refine ⟨hempty, fun cid2 hc hmem => ?_, fun p hp => ?_⟩
            · injection hc with hcc
              subst hcc
              exact herase _ _ hmem
            · simp at hp
              subst hp
              exact hrelpm'
          | some pair =>
            cases pair with
            | mk o n =>
              cases o with
              | healthy =>
                rw [hcreate, hstart, hhealth] at hfail
                simp [isOkE] at hfail
              | notHealthy =>
                refine ⟨hempty, fun cid2 hc hmem => ?_, fun p hp => ?_⟩
                · injection hc with hcc; subst hcc; exact herase _ _ hmem
                · simp at hp; subst hp; exact hrelpm'
              | stoppedDuringStartup st =>
                refine ⟨hempty, fun cid2 hc hmem => ?_, fun p hp => ?_⟩
                · injection hc with hcc; subst hcc; exact herase _ _ hmem
                · simp at hp; subst hp; exact hrelpm'
              | inspectFailed e =>
                refine ⟨hempty, fun cid2 hc hmem => ?_, fun p hp => ?_⟩
                · injection hc with hcc; subst hcc; exact herase _ _ hmem
                · simp at hp; subst hp; exact hrelpm'

/-- A concrete start request used by witnesses. -/
def reqW : StartRentalRequest :=
  { sessionID := "s1", image := "img", gpuDeviceID := "0", sshPublicKey := "pw",
    memoryBytes := 1024, cpuCount := 4, host := "h" }

/-- A Docker behaviour whose container start fails. -/
def behStartFails : RentalDockerBeh :=
  { createResult := Except.ok "c1", startResult := some "boom",
    inspect := fun _ => InspectRes.ok "running" "healthy" }

/-- C2 witness: on an empty executor a start whose container fails to
start rolls back: no session entry, the created container `c1` is gone,
and port 30000's record is released at the call's instant. -/
theorem start_rental_rollback_witness :
    ((StartRental (NewRentalExecutor pmEx 1800) reqW behStartFails 7).2).activeRentals "s1" = none ∧
    ("c1" ∉ ((StartRental (NewRentalExecutor pmEx 1800) reqW behStartFails 7).2).containers) ∧
    ((StartRental (NewRentalExecutor pmEx 1800) reqW behStartFails 7).2).portManager.allocations 30000 =
      some ⟨"s1", 7, some 7⟩ := by
  have h := start_rental_rollback (NewRentalExecutor pmEx 1800) reqW behStartFails 7 rfl rfl
  exact ⟨h.1, h.2.1 "c1" rfl (by simp [NewRentalExecutor]), h.2.2 30000 rfl⟩



/-! ### C8 theorems -/

/-- A stop command for session `s1`, for concrete evaluations. -/
def stopCmdS1 : Command :=
  { id := "c1", type := "stop_rental",
    payload := fun k => if k = "session_id" then some "s1" else none }

/-- A node daemon with an empty executor and an idle mining daemon. -/
def ndEmpty : NodeDaemonState :=
  { rentalExecutor := some (NewRentalExecutor pmEx 1800),
    miningDaemon := some
      { enabled := true, configGPUs := [], state := MState.stopped,
        containerID := "", startedAt := none, pausedAt := none, pausedGPUs := [] } }

/-- C8 counterexample to the claim as stated: a `stop_rental` for session
`s1` (non-empty) on a daemon whose executor has no such session makes the
inner `StopRental` fail; the handler replies `ok` with a warning string —
but it returns at that point and `ResumeAfterRental` is never called (the
recorded resume argument is `none`, not `some []` as the claim requires). -/
theorem stop_rental_error_skips_resume :
    (handleStopRental ndEmpty stopCmdS1 none ⟨Except.ok "m", none⟩ 5).1.status = "ok" ∧
    (handleStopRental ndEmpty stopCmdS1 none ⟨Except.ok "m", none⟩ 5).1.error =
      some "stop warning: rental session not found" ∧
    (handleStopRental ndEmpty stopCmdS1 none ⟨Except.ok "m", none⟩ 5).2.2 = none := by
  refine ⟨rfl, rfl, rfl⟩

/-- C8, amended: for every stop command whose `session_id` is non-empty, on
a daemon with a configured executor, the handler replies `ok` whatever the
inner `StopRental` returned; when `StopRental` fails the reply carries a
`stop warning:` string and `ResumeAfterRental` is NOT called; only when
`StopRental` succeeds (and a mining daemon is configured) is
`ResumeAfterRental` called, with the empty GPU list. -/
theorem stop_rental_acks_ok (d : NodeDaemonState) (cmd : Command)
    (stopResult : Option String) (resumeBeh : MiningBeh) (now : Int)
    (ex : ExecutorState) (hex : d.rentalExecutor = some ex)
    (hsid : (cmd.payload "session_id").getD "" ≠ "") :
    (handleStopRental d cmd stopResult resumeBeh now).1.status = "ok" ∧
    (∀ e r, StopRental ex ((cmd.payload "session_id").getD "") stopResult now =
        (Except.error e, r) →
      (handleStopRental d cmd stopResult resumeBeh now).1.error =
        some ("stop warning: " ++ rentalErrorString e) ∧
      (handleStopRental d cmd stopResult resumeBeh now).2.2 = none) ∧
    (∀ r, StopRental ex ((cmd.payload "session_id").getD "") stopResult now =
        (Except.ok (), r) →
      ∀ md, d.miningDaemon = some md →
        (handleStopRental d cmd stopResult resumeBeh now).2.2 = some []) := by
  unfold handleStopRental
  rw [hex]
  simp only [if_neg hsid]
  cases hstop : StopRental ex ((cmd.payload "session_id").getD "") stopResult now with
  | mk res rest =>
    obtain ⟨ex1, b1⟩ := rest
    cases res with
    | error e =>
      refine ⟨rfl, ?_, ?_⟩
      · intro e2 r2 h2
        injection h2 with h2a h2b
        injection h2a with h2c
        subst h2c
        exact ⟨rfl, rfl⟩
      · intro r2 h2
        injection h2 with h2a h2b
        exact Except.noConfusion h2a
    | ok u =>
      cases u
      refine ⟨?_, ?_, ?_⟩
      · cases hmd : d.miningDaemon <;> rfl
      · intro e2 r2 h2
        injection h2 with h2a h2b
        exact Except.noConfusion h2a
      · intro r2 h2 md hmd
        rw [hmd]

/-- C8 witness (for the amended claim): same daemon and command as the
counterexample; the missing session makes `StopRental` fail, and the reply
is `ok` with the warning while no resume is recorded. -/
theorem stop_rental_acks_ok_witness :
    (handleStopRental ndEmpty stopCmdS1 none ⟨Except.ok "m", none⟩ 5).1.status = "ok" ∧
    (handleStopRental ndEmpty stopCmdS1 none ⟨Except.ok "m", none⟩ 5).1.error =
      some ("stop warning: " ++ rentalErrorString RentalError.sessionNotFound) := by
  have h := stop_rental_acks_ok ndEmpty stopCmdS1 none ⟨Except.ok "m", none⟩ 5
    (NewRentalExecutor pmEx 1800) rfl (by decide)
  exact ⟨h.1, (h.2.1 RentalError.sessionNotFound
    (NewRentalExecutor pmEx 1800, false) rfl).1⟩

/-! ### C7 theorems -/

/-- C7: `Connect` pins both `MinVersion` and `MaxVersion` to TLS 1.3, so a
peer that only negotiates versions below TLS 1.3 fails the handshake and no
connection is installed; on the resulting client `Send` refuses to write
(no application bytes).  Conversely, whenever `Connect` succeeds, the
installed connection's negotiated version is exactly TLS 1.3, so any bytes
later written travel over a TLS 1.3 connection. -/
theorem connect_enforces_tls13 (c : MTLSClient) (srv : TLSServer) :
    ((∀ v, v ∈ srv.versions → v < VersionTLS13) →
      (c.Connect srv).1 = Except.error "TLS handshake failed" ∧
      (c.Connect srv).2 = c ∧
      (c.conn = none → ∀ data, ((c.Connect srv).2).Send data =
        Except.error "not connected")) ∧
    ((c.Connect srv).1 = Except.ok () →
      ((c.Connect srv).2).conn = some ⟨VersionTLS13⟩ ∧
      ∀ data, ((c.Connect srv).2).Send data = Except.ok (VersionTLS13, data)) := by
  have hneg : ∀ v, negotiate VersionTLS13 VersionTLS13 srv = some v →
      v = VersionTLS13 := by
    intro v hv
    unfold negotiate at hv
    have hmem : v ∈ srv.versions.filter
        (fun v => decide (VersionTLS13 ≤ v) && decide (v ≤ VersionTLS13)) := by
      cases hl : srv.versions.filter
          (fun v => decide (VersionTLS13 ≤ v) && decide (v ≤ VersionTLS13)) with
      | nil => rw [hl] at hv; simp at hv
      | cons a l =>
        rw [hl] at hv
        simp at hv
        subst hv
        exact List.mem_cons_self a l
    have := List.of_mem_filter hmem
    simp at this
    omega
  constructor
  · intro hbelow
    have hnone : negotiate VersionTLS13 VersionTLS13 srv = none := by
      unfold negotiate
      rw [List.filter_eq_nil_iff.mpr ?_]
      · rfl
      · intro v hvmem
        have := hbelow v hvmem
        simp
        omega
    refine ⟨?_, ?_, ?_⟩
    · unfold MTLSClient.Connect
      rw [hnone]
    · unfold MTLSClient.Connect
      rw [hnone]
    · intro hcnone data
      unfold MTLSClient.Connect
      rw [hnone]
      unfold MTLSClient.Send
      rw [hcnone]
  · intro hok
    cases hneg2 : negotiate VersionTLS13 VersionTLS13 srv with
    | none =>
      unfold MTLSClient.Connect at hok
      rw [hneg2] at hok
      simp at hok
    | some v =>
      have hv := hneg v hneg2
      subst hv
      unfold MTLSClient.Connect
      rw [hneg2]
      exact ⟨rfl, fun data => rfl⟩

/-- C7 witness: a fresh client pointed at a TLS 1.2-only peer fails the
handshake, installs nothing, and cannot send; pointed at a TLS 1.3 peer it
connects and every send travels over TLS 1.3. -/
theorem connect_enforces_tls13_witness :
    ((MTLSClient.mk none).Connect ⟨[VersionTLS12]⟩).1 =
      Except.error "TLS handshake failed" ∧
    (((MTLSClient.mk none).Connect ⟨[VersionTLS12]⟩).2).Send [1, 2] =
      Except.error "not connected" ∧
    (((MTLSClient.mk none).Connect ⟨[VersionTLS13]⟩).2).Send [1, 2] =
      Except.ok (VersionTLS13, [1, 2]) := by
  have h12 := (connect_enforces_tls13 (MTLSClient.mk none) ⟨[VersionTLS12]⟩).1
    (by decide)
  have h13 := (connect_enforces_tls13 (MTLSClient.mk none) ⟨[VersionTLS13]⟩).2
    rfl
  exact ⟨h12.1, h12.2.2 rfl [1, 2], (h13.2 [1, 2])⟩

end Worldland
